import Mathlib

/-! Shadowsocks local proxy (`client/client.go`): session loop, relay, constructor.

A shallow embedding of `NewLocalServerFromURL`, `parseURL`, `tcpLocal` and
`relay`.  Effectful code is embedded as a function from the outcomes of the
external calls it makes (handshake, dial, read, write, copy, clock) to the
trace of calls it performs, in program order, together with its result.
-/

namespace Client

/-! ## Go values -/

/-- A non-nil Go `error` value.  `tag` identifies the value, `wrapsDeadline`
is the answer of `errors.Is(e, os.ErrDeadlineExceeded)`, and `netError` is
`some t` exactly when the type assertion `e.(net.Error)` succeeds, `t` being
the answer of its `Timeout()` method. -/
structure GoError where
  tag : Nat
  wrapsDeadline : Bool
  netError : Option Bool
deriving DecidableEq, Repr

/-- A Go `error` interface value: `none` is `nil`. -/
abbrev Err := Option GoError

/-- A `net.Conn` value, identified by a number. -/
abbrev Conn := Nat

/-- The type `socks.Addr`, a byte slice. -/
abbrev Addr := List UInt8

/-- The instant type `time.Time`, in nanoseconds. -/
abbrev Time := Int

/-- The constant `time.Second`: a `time.Duration` counts nanoseconds. -/
def Second : Int := 1000000000

/-- The value `os.ErrDeadlineExceeded`; it implements `net.Error` with
`Timeout()` true. -/
def ErrDeadlineExceeded : GoError := ⟨0, true, some true⟩

/-- Modelled from the spec: the sentinel `socks.InfoUDPAssociate` of the
package `socks`, which is not part of the sources; a plain error value that is
neither a deadline error nor a `net.Error`. -/
def InfoUDPAssociate : GoError := ⟨9, false, none⟩

/-! ## `relay` -/

/-- The local `wait` of `relay`: `5 * time.Second`. -/
def wait : Int := 5 * Second

/-- Calls made inside `relay`. -/
inductive RelayEvent where
  /-- The call `io.Copy(dst, src)`, with the error it returned. -/
  | copy (dst src : Conn) (err : Err)
  /-- The call `time.Now()`, with the instant it returned. -/
  | now (t : Time)
  /-- The call `c.SetReadDeadline(t)`. -/
  | setReadDeadline (c : Conn) (t : Time)
  /-- The call `wg.Wait()`. -/
  | wgWait
deriving DecidableEq, Repr

/-- Outcomes of the external calls of one run of `relay`: `err1` is what
`io.Copy(right, left)` returns in the spawned goroutine, `err` what
`io.Copy(left, right)` returns in the calling goroutine, `now1` and `now` what
`time.Now()` returns in each of them. -/
structure RelayEnv where
  err1 : Err
  err : Err
  now1 : Time
  now : Time
deriving DecidableEq, Repr

/-- The body of the goroutine spawned by `relay`, lines 123-127. -/
def relayGoroutine (left right : Conn) (env : RelayEnv) : List RelayEvent :=
  [.copy right left env.err1, .now env.now1, .setReadDeadline right (env.now1 + wait)]

/-- The calls of `relay` in its own goroutine, lines 128-130. -/
def relayMain (left right : Conn) (env : RelayEnv) : List RelayEvent :=
  [.copy left right env.err, .now env.now, .setReadDeadline left (env.now + wait), .wgWait]

/-- The test `e != nil && !errors.Is(e, os.ErrDeadlineExceeded)`. -/
def nonDeadline (e : Err) : Bool :=
  match e with
  | none => false
  | some g => !g.wrapsDeadline

/-- The value returned by `relay`, lines 131-137, from the two copy errors. -/
def relayResult (err1 err : Err) : Err :=
  if nonDeadline err1 then err1
  else if nonDeadline err then err
  else none

/-- The function `relay(left, right)`: the calls of the two goroutines and the
returned error. -/
def relay (left right : Conn) (env : RelayEnv) :
    List RelayEvent × List RelayEvent × Err :=
  (relayGoroutine left right env, relayMain left right env, relayResult env.err1 env.err)

/-! ## The session handler of `tcpLocal` -/

/-- Lines written with `log.Printf` and `log.Println`. -/
inductive LogMsg where
  | failedToListen (addr : String) (e : GoError)
  | failedToAccept (e : GoError)
  | udpAssociateEnd
  | failedToGetTarget (e : GoError)
  | failedToConnect (server : String) (e : GoError)
  | failedToSendTarget (e : GoError)
  | proxy (c : Conn) (server : String) (tgt : Addr)
  | relayError (e : GoError)
deriving DecidableEq, Repr

/-- Calls made by the goroutine that `tcpLocal` starts for an accepted
connection, each with the values it returned. -/
inductive Event where
  /-- The handshake `getAddr(c)`. -/
  | getAddr (c : Conn) (tgt : Addr) (err : Err)
  /-- The call `c.Read(buf)` with `len(buf) = bufLen`. -/
  | read (c : Conn) (bufLen n : Nat) (err : Err)
  /-- The call `net.Dial("tcp", server)`. -/
  | dial (server : String) (rc : Conn) (err : Err)
  /-- The call `shadow(rc)` and the connection it returned. -/
  | shadow (rc wrapped : Conn)
  /-- The call `c.Write(p)`. -/
  | write (c : Conn) (p : Addr) (err : Err)
  /-- The call `c.RemoteAddr()`. -/
  | remoteAddr (c : Conn)
  /-- The call `relay(left, right)`. -/
  | relay (left right : Conn) (err : Err)
  /-- The call `c.Close()`. -/
  | close (c : Conn)
  /-- A log line. -/
  | log (m : LogMsg)
deriving DecidableEq, Repr

/-- Outcomes of the external calls of one session: the handshake, the
successive reads of the client connection (`reads k` is the result of the
read number `k`), the dial, the header write and the relay. -/
structure SessionEnv where
  getAddr : Addr × Err
  reads : Nat → Nat × Err
  dial : Conn × Err
  write : Nat × Err
  relay : RelayEnv

/-- The test `err, ok := err.(net.Error); ok && err.Timeout()` of line 84. -/
def isNetTimeout (e : Err) : Bool :=
  match e with
  | none => false
  | some g => g.netError == some true

/-- The loop of lines 82-89, from the read number `k` on.  `none` when the
loop has not left after `fuel` reads. -/
def udpHold (c : Conn) (reads : Nat → Nat × Err) : Nat → Nat → Option (List Event)
  | 0, _ => none
  | fuel + 1, k =>
    if isNetTimeout (reads k).2 then
      (udpHold c reads fuel (k + 1)).map (fun tr => Event.read c 1 (reads k).1 (reads k).2 :: tr)
    else
      some [Event.read c 1 (reads k).1 (reads k).2, Event.log LogMsg.udpAssociateEnd]

/-- The goroutine of lines 73-113 for the accepted connection `c`: the calls
it makes up to its return, the deferred closes last.  `none` when the UDP loop
has not left after `fuel` reads. -/
def session (server : String) (shadow : Conn → Conn) (c : Conn) (env : SessionEnv)
    (fuel : Nat) : Option (List Event) :=
  let tgt := env.getAddr.1
  let hs := Event.getAddr c tgt env.getAddr.2
  match env.getAddr.2 with
  | some e =>
    if e = InfoUDPAssociate then
      (udpHold c env.reads fuel 0).map (fun tr => hs :: tr ++ [Event.close c])
    else
      some [hs, Event.log (LogMsg.failedToGetTarget e), Event.close c]
  | none =>
    let rc := env.dial.1
    match env.dial.2 with
    | some e =>
      some [hs, Event.dial server rc (some e), Event.log (LogMsg.failedToConnect server e),
        Event.close c]
    | none =>
      let rc1 := shadow rc
      let pre := [hs, Event.dial server rc none, Event.shadow rc rc1,
        Event.write rc1 tgt env.write.2]
      match env.write.2 with
      | some e =>
        some (pre ++ [Event.log (LogMsg.failedToSendTarget e), Event.close rc, Event.close c])
      | none =>
        let r := (relay rc1 c env.relay).2.2
        let tail :=
          match r with
          | some e => [Event.log (LogMsg.relayError e), Event.close rc, Event.close c]
          | none => [Event.close rc, Event.close c]
        some (pre ++ [Event.remoteAddr c, Event.log (LogMsg.proxy c server tgt),
          Event.relay rc1 c r] ++ tail)

/-! ## The accept loop of `tcpLocal` -/

/-- Calls made by `tcpLocal` in its own goroutine. -/
inductive ListenerEvent where
  /-- The call `net.Listen("tcp", addr)`. -/
  | listen (addr : String) (err : Err)
  /-- The call `l.Accept()`. -/
  | accept (c : Conn) (err : Err)
  /-- A log line. -/
  | log (m : LogMsg)
  /-- The statement `go func() ... ()` for the connection `c`, with what the
  started goroutine does. -/
  | go (c : Conn) (run : Option (List Event))
deriving DecidableEq, Repr

/-- Outcomes of the external calls of `tcpLocal`: the bind, the successive
accepts, and for the session started after the accept number `k` the outcomes
of its calls and the number of reads it is followed for. -/
structure ListenerEnv where
  listen : Err
  accepts : Nat → Conn × Err
  sessions : Nat → SessionEnv
  sessionFuel : Nat → Nat

/-- One pass through the body of the `for` loop, lines 67-113, for the accept
number `k`. -/
def acceptIteration (server : String) (shadow : Conn → Conn) (env : ListenerEnv) (k : Nat) :
    List ListenerEvent :=
  match (env.accepts k).2 with
  | some e =>
    [ListenerEvent.accept (env.accepts k).1 (some e), ListenerEvent.log (LogMsg.failedToAccept e)]
  | none =>
    [ListenerEvent.accept (env.accepts k).1 none,
      ListenerEvent.go (env.accepts k).1
        (session server shadow (env.accepts k).1 (env.sessions k) (env.sessionFuel k))]

/-- The first `n` passes of the `for` loop of lines 66-114, from the accept
number `k` on.  The loop has no `break` and no `return`. -/
def acceptLoop (server : String) (shadow : Conn → Conn) (env : ListenerEnv) :
    Nat → Nat → List ListenerEvent
  | 0, _ => []
  | n + 1, k => acceptIteration server shadow env k ++ acceptLoop server shadow env n (k + 1)

/-- The function `tcpLocal` followed for `n` passes of its loop: the calls
made, and whether the function has returned. -/
def tcpLocal (addr server : String) (shadow : Conn → Conn) (env : ListenerEnv) (n : Nat) :
    List ListenerEvent × Bool :=
  match env.listen with
  | some e =>
    ([ListenerEvent.listen addr (some e), ListenerEvent.log (LogMsg.failedToListen addr e)], true)
  | none => (ListenerEvent.listen addr none :: acceptLoop server shadow env n 0, false)

/-! ## `parseURL` and `NewLocalServerFromURL` -/

/-- The type `url.Userinfo`, built by `url.User` or `url.UserPassword`. -/
inductive Userinfo where
  | User (username : String)
  | UserPassword (username password : String)
deriving DecidableEq, Repr

/-- The method `Username()`. -/
def Userinfo.Username : Userinfo → String
  | .User n => n
  | .UserPassword n _ => n

/-- The method `Password()`: the password and whether it is set. -/
def Userinfo.Password : Userinfo → String × Bool
  | .User _ => ("", false)
  | .UserPassword _ p => (p, true)

/-- The fields of `url.URL` that `parseURL` reads; `User` is `none` for a nil
pointer. -/
structure URL where
  Host : String
  User : Option Userinfo
deriving DecidableEq, Repr

/-- The function `parseURL`, for a given `url.Parse`: the named results
`addr`, `cipher`, `password` and `err`. -/
def parseURL (parse : String → Except GoError URL) (s : String) :
    String × String × String × Err :=
  match parse s with
  | .error e => ("", "", "", some e)
  | .ok u =>
    match u.User with
    | some ui => (u.Host, ui.Username, ui.Password.1, none)
    | none => (u.Host, "", "", none)

/-- The type `LocalServer`. -/
structure LocalServer (Cipher : Type) where
  remote : String
  ciph : Cipher

/-- The function `NewLocalServerFromURL`, for a given `url.Parse` and a given
`core.PickCipher`; `log.Fatal(err)`, which ends the process, is the result
`.error err`. -/
def NewLocalServerFromURL {Cipher : Type} (parse : String → Except GoError URL)
    (PickCipher : String → List UInt8 → String → Except GoError Cipher) (url : String) :
    Except GoError (LocalServer Cipher) :=
  match parseURL parse url with
  | (_, _, _, some e) => .error e
  | (addr, cipher, password, none) =>
    let key : List UInt8 := []
    match PickCipher cipher key password with
    | .error e => .error e
    | .ok ciph => .ok ⟨addr, ciph⟩

/-! ## The UDP hold loop -/

/-- The reads `k`, ..., `k + j` of the client connection, as events. -/
def holdReads (c : Conn) (reads : Nat → Nat × Err) (k j : Nat) : List Event :=
  (List.range (j + 1)).map (fun i => Event.read c 1 (reads (k + i)).1 (reads (k + i)).2)

/-- Whether an event is a call of `Write`. -/
def Event.isWrite : Event → Bool
  | .write _ _ _ => true
  | _ => false

/-- Whether an event is a call of `relay`. -/
def Event.isRelay : Event → Bool
  | .relay _ _ _ => true
  | _ => false

/-- Whether an event is a call of `Close`. -/
def Event.isClose : Event → Bool
  | .close _ => true
  | _ => false

/-- Whether an event is a call of `net.Dial`. -/
def Event.isDial : Event → Bool
  | .dial _ _ _ => true
  | _ => false

/-- Whether an event is a call of `shadow`. -/
def Event.isShadow : Event → Bool
  | .shadow _ _ => true
  | _ => false

/-- The place of a call in the sequence handshake, dial, wrap, header write,
relay, release; `none` for reads, `RemoteAddr` and log lines. -/
def Event.stage : Event → Option Nat
  | .getAddr _ _ _ => some 0
  | .dial _ _ _ => some 1
  | .shadow _ _ => some 2
  | .write _ _ _ => some 3
  | .relay _ _ _ => some 4
  | .close _ => some 5
  | _ => none

/-! ## Sample values -/

/-- A connection reset: a `net.Error` that is not a timeout. -/
def sampleReset : GoError := ⟨7, false, some false⟩

/-- A broken pipe. -/
def samplePipe : GoError := ⟨8, false, some false⟩

/-- The value `io.EOF`. -/
def sampleEOF : GoError := ⟨1, false, none⟩

/-- The target `93.184.216.34:80` in SOCKS5 address format. -/
def sampleTarget : Addr := [1, 93, 184, 216, 34, 0, 80]

/-- A relay in which both copies end at end of stream. -/
def sampleRelayEnv : RelayEnv := ⟨none, none, 10, 20⟩

/-- A session whose handshake, dial and header write succeed. -/
def sampleTcpEnv : SessionEnv :=
  ⟨(sampleTarget, none), fun _ => (0, some sampleEOF), (5, none), (7, none), sampleRelayEnv⟩

/-- A session whose dial fails. -/
def sampleDialFailEnv : SessionEnv :=
  ⟨(sampleTarget, none), fun _ => (0, some sampleEOF), (0, some sampleReset), (7, none),
    sampleRelayEnv⟩

/-- A UDP-associate session: two reads time out, the third meets the end of
the stream. -/
def sampleUdpEnv : SessionEnv :=
  ⟨([], some InfoUDPAssociate),
    fun k => if k < 2 then (0, some ErrDeadlineExceeded) else (0, some sampleEOF),
    (5, none), (7, none), sampleRelayEnv⟩

/-- A UDP-associate session whose first read returns one byte and no error. -/
def sampleUdpDataEnv : SessionEnv :=
  ⟨([], some InfoUDPAssociate), fun _ => (1, none), (5, none), (7, none), sampleRelayEnv⟩

/-- The cipher wrap used in the samples: the wrapped connection of `rc` is
numbered `rc + 100`. -/
def sampleShadow (rc : Conn) : Conn := rc + 100

/-- Whether an event of the listener is a call of `Accept`. -/
def ListenerEvent.isAccept : ListenerEvent → Bool
  | .accept _ _ => true
  | _ => false

/-- Whether an event of the listener is the start of a session goroutine. -/
def ListenerEvent.isGo : ListenerEvent → Bool
  | .go _ _ => true
  | _ => false

/-- The call of `Accept` number `k`, with its result. -/
def acceptEvent (env : ListenerEnv) (k : Nat) : ListenerEvent :=
  ListenerEvent.accept (env.accepts k).1 (env.accepts k).2

/-- The session goroutine started after the accept number `k`, when that
accept succeeded. -/
def goEvent (server : String) (shadow : Conn → Conn) (env : ListenerEnv) (k : Nat) :
    Option ListenerEvent :=
  match (env.accepts k).2 with
  | some _ => none
  | none =>
    some (ListenerEvent.go (env.accepts k).1
      (session server shadow (env.accepts k).1 (env.sessions k) (env.sessionFuel k)))

/-- A `url.Parse` that returns the URL of the sample configuration. -/
def sampleParse (_ : String) : Except GoError URL :=
  .ok ⟨"relay.example:8388", some (Userinfo.UserPassword "aes-256-gcm" "secret")⟩

/-- A cipher factory that accepts everything and records its arguments. -/
def samplePickCipher (method : String) (key : List UInt8) (password : String) :
    Except GoError (String × List UInt8 × String) :=
  .ok (method, key, password)

/-- A listener whose bind succeeds, whose accepts fail at the even numbers,
and whose sessions all fail to dial. -/
def sampleListenerEnv : ListenerEnv :=
  ⟨none, fun k => if k % 2 = 0 then (0, some sampleReset) else (k, none),
    fun _ => sampleDialFailEnv, fun _ => 0⟩

/-- A listener whose bind fails. -/
def sampleBindFailEnv : ListenerEnv :=
  ⟨some samplePipe, fun k => (k, none), fun _ => sampleTcpEnv, fun _ => 0⟩

theorem holdReads_zero (c : Conn) (reads : Nat → Nat × Err) (k : Nat) :
    holdReads c reads k 0 = [Event.read c 1 (reads k).1 (reads k).2] := by
  simp [holdReads, List.range_succ]

theorem holdReads_succ (c : Conn) (reads : Nat → Nat × Err) (k j : Nat) :
    holdReads c reads k (j + 1) =
      Event.read c 1 (reads k).1 (reads k).2 :: holdReads c reads (k + 1) j := by
  unfold holdReads
  rw [List.range_succ_eq_map, List.map_cons, List.map_map]
  simp only [Nat.add_zero, List.cons.injEq, true_and]
  apply List.map_congr_left
  intro i _
  simp only [Function.comp, Nat.succ_eq_add_one]
  rw [show k + (i + 1) = k + 1 + i by omega]

/-- When the loop leaves, it has made the reads `k`, ..., `k + j` for some
`j < fuel`, all but the last being `net.Error` timeouts, and the last not. -/
theorem udpHold_some (c : Conn) (reads : Nat → Nat × Err) :
    ∀ (fuel k : Nat) (tr : List Event), udpHold c reads fuel k = some tr →
      ∃ j, j < fuel ∧ (∀ i, i < j → isNetTimeout (reads (k + i)).2 = true) ∧
        isNetTimeout (reads (k + j)).2 = false ∧
        tr = holdReads c reads k j ++ [Event.log LogMsg.udpAssociateEnd] := by
  intro fuel
  induction fuel with
  | zero => intro k tr h; simp [udpHold] at h
  | succ n ih =>
    intro k tr h
    unfold udpHold at h
    by_cases ht : isNetTimeout (reads k).2 = true
    · rw [if_pos ht] at h
      cases hrec : udpHold c reads n (k + 1) with
      | none => rw [hrec] at h; simp at h
      | some tr1 =>
        rw [hrec] at h
        simp only [Option.map_some', Option.some.injEq] at h
        obtain ⟨j, hj, hall, hlast, htr⟩ := ih (k + 1) tr1 hrec
        refine ⟨j + 1, by omega, ?_, ?_, ?_⟩
        · intro i hi
          cases i with
          | zero => simpa using ht
          | succ i =>
            have := hall i (by omega)
            rwa [show k + 1 + i = k + (i + 1) by omega] at this
        · rwa [show k + 1 + j = k + (j + 1) by omega] at hlast
        · rw [← h, htr, holdReads_succ]
          rfl
    · rw [if_neg ht] at h
      simp only [Option.some.injEq] at h
      refine ⟨0, by omega, ?_, ?_, ?_⟩
      · intro i hi; omega
      · simpa using ht
      · rw [← h, holdReads_zero]
        rfl

/-- The loop leaves at the first read that is not a `net.Error` timeout, as
soon as the fuel covers it. -/
theorem udpHold_of_exit (c : Conn) (reads : Nat → Nat × Err) :
    ∀ (fuel k j : Nat), j < fuel → (∀ i, i < j → isNetTimeout (reads (k + i)).2 = true) →
      isNetTimeout (reads (k + j)).2 = false →
      udpHold c reads fuel k =
        some (holdReads c reads k j ++ [Event.log LogMsg.udpAssociateEnd]) := by
  intro fuel
  induction fuel with
  | zero => intro k j hj; omega
  | succ n ih =>
    intro k j hj hall hlast
    unfold udpHold
    cases j with
    | zero =>
      have : isNetTimeout (reads k).2 = false := by simpa using hlast
      simp [this, holdReads_zero]
    | succ j =>
      have h0 : isNetTimeout (reads k).2 = true := by simpa using hall 0 (by omega)
      rw [if_pos h0]
      have hrec := ih (k + 1) j (by omega)
        (by
          intro i hi
          have := hall (i + 1) (by omega)
          rwa [show k + (i + 1) = k + 1 + i by omega] at this)
        (by rwa [show k + (j + 1) = k + 1 + j by omega] at hlast)
      rw [hrec, holdReads_succ]
      rfl

/-- Every event of the hold loop is a read of the client connection into a
buffer of one byte, or the final log line. -/
theorem udpHold_events (c : Conn) (reads : Nat → Nat × Err) (fuel k : Nat) (tr : List Event)
    (h : udpHold c reads fuel k = some tr) (ev : Event) (hev : ev ∈ tr) :
    (∃ n err, ev = Event.read c 1 n err) ∨ ev = Event.log LogMsg.udpAssociateEnd := by
  obtain ⟨j, _, _, _, htr⟩ := udpHold_some c reads fuel k tr h
  subst htr
  rw [List.mem_append] at hev
  rcases hev with hev | hev
  · left
    unfold holdReads at hev
    rw [List.mem_map] at hev
    obtain ⟨i, _, hi⟩ := hev
    exact ⟨_, _, hi.symm⟩
  · right
    simpa using hev

/-! ## The shapes of a session -/

/-- The five ways a session runs, according to the outcomes of the handshake,
the dial and the header write. -/
theorem session_forms (server : String) (shadow : Conn → Conn) (c : Conn) (env : SessionEnv)
    (fuel : Nat) (tr : List Event) (h : session server shadow c env fuel = some tr) :
    (env.getAddr.2 = some InfoUDPAssociate ∧
      ∃ j, j < fuel ∧ (∀ i, i < j → isNetTimeout (env.reads i).2 = true) ∧
        isNetTimeout (env.reads j).2 = false ∧
        tr = Event.getAddr c env.getAddr.1 (some InfoUDPAssociate) ::
          (holdReads c env.reads 0 j ++ [Event.log LogMsg.udpAssociateEnd]) ++
            [Event.close c]) ∨
    (∃ e, env.getAddr.2 = some e ∧ e ≠ InfoUDPAssociate ∧
      tr = [Event.getAddr c env.getAddr.1 (some e), Event.log (LogMsg.failedToGetTarget e),
        Event.close c]) ∨
    (∃ e, env.getAddr.2 = none ∧ env.dial.2 = some e ∧
      tr = [Event.getAddr c env.getAddr.1 none, Event.dial server env.dial.1 (some e),
        Event.log (LogMsg.failedToConnect server e), Event.close c]) ∨
    (∃ e, env.getAddr.2 = none ∧ env.dial.2 = none ∧ env.write.2 = some e ∧
      tr = [Event.getAddr c env.getAddr.1 none, Event.dial server env.dial.1 none,
        Event.shadow env.dial.1 (shadow env.dial.1),
        Event.write (shadow env.dial.1) env.getAddr.1 (some e),
        Event.log (LogMsg.failedToSendTarget e), Event.close env.dial.1, Event.close c]) ∨
    (env.getAddr.2 = none ∧ env.dial.2 = none ∧ env.write.2 = none ∧
      ∃ logs, (logs = [] ∨ ∃ e, logs = [Event.log (LogMsg.relayError e)]) ∧
      tr = [Event.getAddr c env.getAddr.1 none, Event.dial server env.dial.1 none,
        Event.shadow env.dial.1 (shadow env.dial.1),
        Event.write (shadow env.dial.1) env.getAddr.1 none,
        Event.remoteAddr c, Event.log (LogMsg.proxy c server env.getAddr.1),
        Event.relay (shadow env.dial.1) c (relay (shadow env.dial.1) c env.relay).2.2] ++
        logs ++ [Event.close env.dial.1, Event.close c]) := by
  unfold session at h
  split at h
  · rename_i e he
    split at h
    · rename_i heq
      subst heq
      left
      refine ⟨he, ?_⟩
      cases hu : udpHold c env.reads fuel 0 with
      | none => rw [hu] at h; simp at h
      | some tr1 =>
        rw [hu] at h
        simp only [Option.map_some', Option.some.injEq] at h
        obtain ⟨j, hj, hall, hlast, htr⟩ := udpHold_some c env.reads fuel 0 tr1 hu
        refine ⟨j, hj, ?_, ?_, ?_⟩
        · intro i hi
          simpa using hall i hi
        · simpa using hlast
        · rw [← h, htr, he]
    · rename_i hne
      right; left
      refine ⟨e, he, hne, ?_⟩
      simp only [Option.some.injEq] at h
      rw [← h, he]
  · rename_i he
    split at h
    · rename_i e hd
      right; right; left
      refine ⟨e, he, hd, ?_⟩
      simp only [Option.some.injEq] at h
      rw [← h, he]
    · rename_i hd
      split at h
      · rename_i e hw
        right; right; right; left
        refine ⟨e, he, hd, hw, ?_⟩
        simp only [Option.some.injEq] at h
        rw [← h, he, hw]
        rfl
      · rename_i hw
        right; right; right; right
        refine ⟨he, hd, hw, ?_⟩
        simp only [Option.some.injEq] at h
        cases hr : (relay (shadow env.dial.1) c env.relay).2.2 with
        | none =>
          refine ⟨[], Or.inl rfl, ?_⟩
          rw [← h, he, hw]
          simp [hr]
        | some e =>
          refine ⟨[Event.log (LogMsg.relayError e)], Or.inr ⟨e, rfl⟩, ?_⟩
          rw [← h, he, hw]
          simp [hr]

/-- A session whose handshake does not return the UDP sentinel returns,
whatever the fuel. -/
theorem session_returns_of_not_udp (server : String) (shadow : Conn → Conn) (c : Conn)
    (env : SessionEnv) (fuel : Nat) (h : env.getAddr.2 ≠ some InfoUDPAssociate) :
    ∃ tr, session server shadow c env fuel = some tr := by
  unfold session
  split
  · rename_i e he
    split
    · rename_i heq
      subst heq
      exact absurd he h
    · exact ⟨_, rfl⟩
  · split
    · exact ⟨_, rfl⟩
    · split
      · exact ⟨_, rfl⟩
      · exact ⟨_, rfl⟩

/-- A session in UDP hold returns once a read is not a `net.Error` timeout
and the fuel covers that read. -/
theorem session_returns_of_udp_exit (server : String) (shadow : Conn → Conn) (c : Conn)
    (env : SessionEnv) (fuel j : Nat) (h : env.getAddr.2 = some InfoUDPAssociate)
    (hj : j < fuel) (hall : ∀ i, i < j → isNetTimeout (env.reads i).2 = true)
    (hlast : isNetTimeout (env.reads j).2 = false) :
    session server shadow c env fuel =
      some (Event.getAddr c env.getAddr.1 (some InfoUDPAssociate) ::
        (holdReads c env.reads 0 j ++ [Event.log LogMsg.udpAssociateEnd]) ++
          [Event.close c]) := by
  have hu := udpHold_of_exit c env.reads fuel 0 j hj
    (by intro i hi; simpa using hall i hi) (by simpa using hlast)
  unfold session
  simp [h, hu]

/-- The last call of a session that returns is the close of the client
connection. -/
theorem session_ends_with_close (server : String) (shadow : Conn → Conn) (c : Conn)
    (env : SessionEnv) (fuel : Nat) (tr : List Event)
    (h : session server shadow c env fuel = some tr) : ∃ pre, tr = pre ++ [Event.close c] := by
  rcases session_forms server shadow c env fuel tr h with
    ⟨_, j, _, _, _, ht⟩ | ⟨e, _, _, ht⟩ | ⟨e, _, _, ht⟩ | ⟨e, _, _, _, ht⟩ |
    ⟨_, _, _, logs, hlogs, ht⟩
  · exact ⟨_, ht⟩
  · exact ⟨[Event.getAddr c env.getAddr.1 (some e), Event.log (LogMsg.failedToGetTarget e)],
      by rw [ht]; rfl⟩
  · exact ⟨[Event.getAddr c env.getAddr.1 none, Event.dial server env.dial.1 (some e),
      Event.log (LogMsg.failedToConnect server e)], by rw [ht]; rfl⟩
  · exact ⟨[Event.getAddr c env.getAddr.1 none, Event.dial server env.dial.1 none,
      Event.shadow env.dial.1 (shadow env.dial.1),
      Event.write (shadow env.dial.1) env.getAddr.1 (some e),
      Event.log (LogMsg.failedToSendTarget e), Event.close env.dial.1], by rw [ht]; rfl⟩
  · exact ⟨[Event.getAddr c env.getAddr.1 none, Event.dial server env.dial.1 none,
      Event.shadow env.dial.1 (shadow env.dial.1),
      Event.write (shadow env.dial.1) env.getAddr.1 none,
      Event.remoteAddr c, Event.log (LogMsg.proxy c server env.getAddr.1),
      Event.relay (shadow env.dial.1) c (relay (shadow env.dial.1) c env.relay).2.2] ++
      logs ++ [Event.close env.dial.1], by rw [ht]; simp⟩

/-! ## Properties of `relay` -/

/-- C2: in `relay(left, right)`, with `e1` the error of the copy from `left`
to `right` and `e2` the error of the copy from `right` to `left`, the result is
nil exactly when each of `e1`, `e2` is nil or a deadline-exceeded error; in
every other case the result is a non-nil error that is not deadline-exceeded
and is one of `e1`, `e2`. -/
theorem relay_result_nil_iff_benign (left right : Conn) (env : RelayEnv) (e1 e2 : Err)
    (h1 : RelayEvent.copy right left e1 ∈ (relay left right env).1)
    (h2 : RelayEvent.copy left right e2 ∈ (relay left right env).2.1) :
    ((relay left right env).2.2 = none ↔
      ((e1 = none ∨ ∃ g, e1 = some g ∧ g.wrapsDeadline = true) ∧
       (e2 = none ∨ ∃ g, e2 = some g ∧ g.wrapsDeadline = true))) ∧
    ((relay left right env).2.2 ≠ none →
      ∃ g, (relay left right env).2.2 = some g ∧ g.wrapsDeadline = false ∧
        (e1 = some g ∨ e2 = some g)) := by
  have he1 : e1 = env.err1 := by
    simpa [relay, relayGoroutine] using h1
  have he2 : e2 = env.err := by
    simpa [relay, relayMain] using h2
  subst he1 he2
  rcases env with ⟨a, b, t1, t2⟩
  rcases a with _ | ⟨ta, da, na⟩ <;> rcases b with _ | ⟨tb, db, nb⟩
  · simp [relay, relayResult, nonDeadline]
  · cases db <;> simp [relay, relayResult, nonDeadline]
  · cases da <;> simp [relay, relayResult, nonDeadline]
  · cases da <;> cases db <;> simp [relay, relayResult, nonDeadline]

/-- An instance of C2: the first copy ends on a deadline, the second on a
reset; the reset is returned. -/
theorem relay_result_nil_iff_benign_witness :
    ((relay 1 2 ⟨some ErrDeadlineExceeded, some ⟨7, false, none⟩, 10, 20⟩).2.2 = none ↔
      ((some ErrDeadlineExceeded = none ∨
          ∃ g, some ErrDeadlineExceeded = some g ∧ g.wrapsDeadline = true) ∧
       ((some (⟨7, false, none⟩ : GoError)) = none ∨
          ∃ g, some (⟨7, false, none⟩ : GoError) = some g ∧ g.wrapsDeadline = true))) ∧
    ((relay 1 2 ⟨some ErrDeadlineExceeded, some ⟨7, false, none⟩, 10, 20⟩).2.2 ≠ none →
      ∃ g, (relay 1 2 ⟨some ErrDeadlineExceeded, some ⟨7, false, none⟩, 10, 20⟩).2.2 = some g ∧
        g.wrapsDeadline = false ∧
        (some ErrDeadlineExceeded = some g ∨ some (⟨7, false, none⟩ : GoError) = some g)) :=
  relay_result_nil_iff_benign 1 2 ⟨some ErrDeadlineExceeded, some ⟨7, false, none⟩, 10, 20⟩
    (some ErrDeadlineExceeded) (some ⟨7, false, none⟩) (by decide) (by decide)

/-- C7: in `relay(left, right)` each goroutine, once its copy has returned
(with any error value, nil included), reads the clock and sets a read deadline
of that instant plus 5 000 000 000 ns on the connection its copy wrote to,
which is the connection the copy of the other goroutine reads from; the
duration is the constant `5 * time.Second` whatever the arguments. -/
theorem relay_deadline_on_copy_destination (left right : Conn) (env : RelayEnv) :
    (relay left right env).1 =
      [RelayEvent.copy right left env.err1, RelayEvent.now env.now1,
        RelayEvent.setReadDeadline right (env.now1 + 5000000000)] ∧
    (relay left right env).2.1 =
      [RelayEvent.copy left right env.err, RelayEvent.now env.now,
        RelayEvent.setReadDeadline left (env.now + 5000000000), RelayEvent.wgWait] ∧
    wait = 5 * Second ∧ Second = 1000000000 := by
  refine ⟨?_, ?_, rfl, rfl⟩
  · simp [relay, relayGoroutine, wait, Second]
  · simp [relay, relayMain, wait, Second]

/-- C10: in `relay(left, right)`, with `e1` the error of the copy from `left`
to `right` and `e2` the error of the copy from `right` to `left`: when both are
errors that are not deadline-exceeded the result is `e1`; a result other than
`e1` is `e2` and occurs only when `e1` is nil or deadline-exceeded; and the
session handler calls `relay` with the wrapped upstream connection as `left`
and the client connection as `right`. -/
theorem relay_left_to_right_error_first (left right : Conn) (env : RelayEnv) (e1 e2 : Err)
    (h1 : RelayEvent.copy right left e1 ∈ (relay left right env).1)
    (h2 : RelayEvent.copy left right e2 ∈ (relay left right env).2.1) :
    (∀ g1 g2, e1 = some g1 → e2 = some g2 → g1.wrapsDeadline = false →
      g2.wrapsDeadline = false → (relay left right env).2.2 = some g1) ∧
    (∀ g1, e1 = some g1 → g1.wrapsDeadline = false → (relay left right env).2.2 = some g1) ∧
    ((relay left right env).2.2 ≠ none → (relay left right env).2.2 ≠ e1 →
      (relay left right env).2.2 = e2 ∧
        (e1 = none ∨ ∃ g, e1 = some g ∧ g.wrapsDeadline = true)) ∧
    (∀ (server : String) (shadow : Conn → Conn) (c : Conn) (senv : SessionEnv) (fuel : Nat)
      (tr : List Event) (l r : Conn) (e : Err),
      session server shadow c senv fuel = some tr → Event.relay l r e ∈ tr →
        l = shadow senv.dial.1 ∧ r = c ∧ e = (relay l r senv.relay).2.2) := by
  have he1 : e1 = env.err1 := by
    simpa [relay, relayGoroutine] using h1
  have he2 : e2 = env.err := by
    simpa [relay, relayMain] using h2
  subst he1 he2
  refine ⟨?_, ?_, ?_, ?_⟩
  · intro g1 g2 hg1 _ hd1 _
    simp [relay, relayResult, nonDeadline, hg1, hd1]
  · intro g1 hg1 hd1
    simp [relay, relayResult, nonDeadline, hg1, hd1]
  · rcases env with ⟨a, b, t1, t2⟩
    rcases a with _ | ⟨ta, da, na⟩ <;> rcases b with _ | ⟨tb, db, nb⟩
    · simp [relay, relayResult, nonDeadline]
    · cases db <;> simp [relay, relayResult, nonDeadline]
    · cases da <;> simp [relay, relayResult, nonDeadline]
    · cases da <;> cases db <;> simp [relay, relayResult, nonDeadline]
  · intro server shadow c senv fuel tr l r e hs hr
    unfold session at hs
    split at hs
    · split at hs
      · cases hu : udpHold c senv.reads fuel 0 with
        | none => rw [hu] at hs; simp at hs
        | some tr1 =>
          rw [hu] at hs
          simp only [Option.map_some', Option.some.injEq] at hs
          subst hs
          simp at hr
          rcases udpHold_events c senv.reads fuel 0 tr1 hu _ hr with ⟨n, err, h⟩ | h <;>
            simp at h
      · simp at hs
        subst hs
        simp at hr
    · split at hs
      · simp at hs
        subst hs
        simp at hr
      · split at hs
        · simp at hs
          subst hs
          simp at hr
        · simp at hs
          subst hs
          split at hr <;> simp at hr <;> simp [hr]

/-- An instance of C10: both copies end with errors that are not
deadline-exceeded; the error of the copy from `left` to `right` is returned. -/
theorem relay_left_to_right_error_first_witness :
    RelayEvent.copy 2 1 (some sampleReset) ∈
      (relay 1 2 ⟨some sampleReset, some samplePipe, 10, 20⟩).1 ∧
    RelayEvent.copy 1 2 (some samplePipe) ∈
      (relay 1 2 ⟨some sampleReset, some samplePipe, 10, 20⟩).2.1 ∧
    (relay 1 2 ⟨some sampleReset, some samplePipe, 10, 20⟩).2.2 = some sampleReset :=
  ⟨by decide, by decide,
    (relay_left_to_right_error_first 1 2 ⟨some sampleReset, some samplePipe, 10, 20⟩
      (some sampleReset) (some samplePipe) (by decide) (by decide)).1
      sampleReset samplePipe rfl rfl rfl rfl⟩

/-! ## Properties of the session handler -/

theorem holdReads_filter (c : Conn) (reads : Nat → Nat × Err) (k j : Nat) (p : Event → Bool)
    (hp : ∀ n e, p (Event.read c 1 n e) = false) : (holdReads c reads k j).filter p = [] := by
  rw [List.filter_eq_nil_iff]
  intro ev hev
  unfold holdReads at hev
  rw [List.mem_map] at hev
  obtain ⟨i, _, hi⟩ := hev
  rw [← hi, hp]
  simp

/-- C1: when the handshake returns the target `T`, the dial succeeds and the
header write succeeds, the session makes exactly one `Write` call, on the
wrapped upstream connection, with exactly the bytes `T`; it comes after the
handshake and the wrap and before the one call of `relay`. -/
theorem session_header_written_once_before_relay (server : String) (shadow : Conn → Conn)
    (c : Conn) (env : SessionEnv) (fuel : Nat)
    (hg : env.getAddr.2 = none) (hd : env.dial.2 = none) (hw : env.write.2 = none) :
    ∃ pre mid post,
      session server shadow c env fuel =
        some (pre ++ [Event.write (shadow env.dial.1) env.getAddr.1 none] ++ mid ++
          [Event.relay (shadow env.dial.1) c (relay (shadow env.dial.1) c env.relay).2.2] ++
          post) ∧
      Event.getAddr c env.getAddr.1 none ∈ pre ∧
      Event.shadow env.dial.1 (shadow env.dial.1) ∈ pre ∧
      (∀ ev ∈ pre ++ mid ++ post, ev.isWrite = false) ∧
      (∀ ev ∈ pre ++ mid ++ post, ev.isRelay = false) := by
  obtain ⟨tr, htr⟩ := session_returns_of_not_udp server shadow c env fuel (by simp [hg])
  rcases session_forms server shadow c env fuel tr htr with
    ⟨h, _⟩ | ⟨e, h, _⟩ | ⟨e, _, h, _⟩ | ⟨e, _, _, h, _⟩ | ⟨_, _, _, logs, hlogs, h⟩
  · rw [hg] at h; simp at h
  · rw [hg] at h; simp at h
  · rw [hd] at h; simp at h
  · rw [hw] at h; simp at h
  · refine ⟨[Event.getAddr c env.getAddr.1 none, Event.dial server env.dial.1 none,
        Event.shadow env.dial.1 (shadow env.dial.1)],
      [Event.remoteAddr c, Event.log (LogMsg.proxy c server env.getAddr.1)],
      logs ++ [Event.close env.dial.1, Event.close c], ?_, by simp, by simp, ?_, ?_⟩
    · rw [htr, h]
      simp
    · rcases hlogs with hl | ⟨e, hl⟩ <;> subst hl <;> simp [Event.isWrite]
    · rcases hlogs with hl | ⟨e, hl⟩ <;> subst hl <;> simp [Event.isRelay]

/-- An instance of C1: the target `93.184.216.34:80` is the only write. -/
theorem session_header_written_once_before_relay_witness :
    sampleTcpEnv.getAddr.2 = none ∧ sampleTcpEnv.dial.2 = none ∧ sampleTcpEnv.write.2 = none ∧
    ∃ pre mid post,
      session "relay.example:8388" sampleShadow 3 sampleTcpEnv 0 =
        some (pre ++ [Event.write (sampleShadow sampleTcpEnv.dial.1) sampleTcpEnv.getAddr.1 none]
          ++ mid ++
          [Event.relay (sampleShadow sampleTcpEnv.dial.1) 3
            (relay (sampleShadow sampleTcpEnv.dial.1) 3 sampleTcpEnv.relay).2.2] ++
          post) ∧
      Event.getAddr 3 sampleTcpEnv.getAddr.1 none ∈ pre ∧
      Event.shadow sampleTcpEnv.dial.1 (sampleShadow sampleTcpEnv.dial.1) ∈ pre ∧
      (∀ ev ∈ pre ++ mid ++ post, ev.isWrite = false) ∧
      (∀ ev ∈ pre ++ mid ++ post, ev.isRelay = false) :=
  ⟨rfl, rfl, rfl,
    session_header_written_once_before_relay "relay.example:8388" sampleShadow 3 sampleTcpEnv 0
      rfl rfl rfl⟩

/-- C3: whenever the session handler returns, on every path, its last call is
the close of the client connection; when the dial succeeded the close calls are
exactly the close of the dialed connection followed by the close of the client
connection, and otherwise the close of the client connection alone. -/
theorem session_closes_connections (server : String) (shadow : Conn → Conn) (c : Conn)
    (env : SessionEnv) (fuel : Nat) (tr : List Event)
    (h : session server shadow c env fuel = some tr) :
    tr.getLast? = some (Event.close c) ∧
    (∀ srv rc, Event.dial srv rc none ∈ tr →
      tr.filter Event.isClose = [Event.close rc, Event.close c]) ∧
    ((∀ srv rc, Event.dial srv rc none ∉ tr) → tr.filter Event.isClose = [Event.close c]) := by
  refine ⟨?_, ?_⟩
  · obtain ⟨pre, hpre⟩ := session_ends_with_close server shadow c env fuel tr h
    rw [hpre]
    simp
  rcases session_forms server shadow c env fuel tr h with
    ⟨_, j, _, _, _, ht⟩ | ⟨e, _, _, ht⟩ | ⟨e, _, _, ht⟩ | ⟨e, _, _, _, ht⟩ |
    ⟨_, _, _, logs, hlogs, ht⟩
  · subst ht
    have hf := holdReads_filter c env.reads 0 j Event.isClose (by intros; rfl)
    refine ⟨?_, ?_⟩
    · intro srv rc hmem
      simp only [List.cons_append, List.append_assoc, List.mem_cons, List.mem_append,
        reduceCtorEq, false_or] at hmem
      rcases hmem with hmem | hmem
      · unfold holdReads at hmem
        simp at hmem
      · simp at hmem
    · intro _
      simp [List.filter_cons, List.filter_append, hf, Event.isClose]
  · subst ht
    refine ⟨?_, ?_⟩
    · intro srv rc hmem
      simp at hmem
    · intro _
      simp [List.filter_cons, Event.isClose]
  · subst ht
    refine ⟨?_, ?_⟩
    · intro srv rc hmem
      simp at hmem
    · intro _
      simp [List.filter_cons, Event.isClose]
  · subst ht
    refine ⟨?_, ?_⟩
    · intro srv rc hmem
      simp at hmem
      rw [hmem.2]
      simp [List.filter_cons, Event.isClose]
    · intro hno
      exact absurd (by simp) (hno server env.dial.1)
  · subst ht
    refine ⟨?_, ?_⟩
    · intro srv rc hmem
      rcases hlogs with hl | ⟨e, hl⟩ <;> subst hl <;> simp at hmem <;> rw [hmem.2] <;>
        simp [List.filter_cons, Event.isClose]
    · intro hno
      exact absurd (by simp) (hno server env.dial.1)

/-- An instance of C3: a session that relays closes the dialed connection
`5`, then the client connection `3`. -/
theorem session_closes_connections_witness :
    session "relay.example:8388" sampleShadow 3 sampleTcpEnv 0 =
      some [Event.getAddr 3 sampleTarget none, Event.dial "relay.example:8388" 5 none,
        Event.shadow 5 105, Event.write 105 sampleTarget none, Event.remoteAddr 3,
        Event.log (LogMsg.proxy 3 "relay.example:8388" sampleTarget), Event.relay 105 3 none,
        Event.close 5, Event.close 3] ∧
    [Event.getAddr 3 sampleTarget none, Event.dial "relay.example:8388" 5 none,
        Event.shadow 5 105, Event.write 105 sampleTarget none, Event.remoteAddr 3,
        Event.log (LogMsg.proxy 3 "relay.example:8388" sampleTarget), Event.relay 105 3 none,
        Event.close 5, Event.close 3].filter Event.isClose = [Event.close 5, Event.close 3] :=
  ⟨rfl, (session_closes_connections "relay.example:8388" sampleShadow 3 sampleTcpEnv 0
    [Event.getAddr 3 sampleTarget none, Event.dial "relay.example:8388" 5 none,
        Event.shadow 5 105, Event.write 105 sampleTarget none, Event.remoteAddr 3,
        Event.log (LogMsg.proxy 3 "relay.example:8388" sampleTarget), Event.relay 105 3 none,
        Event.close 5, Event.close 3]
    rfl).2.1 "relay.example:8388" 5 (by simp)⟩

/-- C5: a session whose handshake returns the UDP-associate sentinel makes,
after the handshake, only reads of the client connection, one log line and the
final close of the client connection: no dial, no cipher wrap, no call of
`relay` and no write. -/
theorem udp_session_reads_then_closes (server : String) (shadow : Conn → Conn) (c : Conn)
    (env : SessionEnv) (fuel : Nat) (tr : List Event)
    (hu : env.getAddr.2 = some InfoUDPAssociate)
    (h : session server shadow c env fuel = some tr) :
    ∃ body,
      tr = Event.getAddr c env.getAddr.1 (some InfoUDPAssociate) :: body ++
        [Event.log LogMsg.udpAssociateEnd, Event.close c] ∧
      (∀ ev ∈ body, ∃ n err, ev = Event.read c 1 n err) ∧
      (∀ ev ∈ tr, ev.isDial = false ∧ ev.isShadow = false ∧ ev.isRelay = false ∧
        ev.isWrite = false) := by
  rcases session_forms server shadow c env fuel tr h with
    ⟨_, j, _, _, _, ht⟩ | ⟨e, he, hne, _⟩ | ⟨e, he, _⟩ | ⟨e, he, _⟩ | ⟨he, _⟩
  · have hbody : ∀ ev ∈ holdReads c env.reads 0 j, ∃ n err, ev = Event.read c 1 n err := by
      intro ev hev
      unfold holdReads at hev
      rw [List.mem_map] at hev
      obtain ⟨i, _, hi⟩ := hev
      exact ⟨_, _, hi.symm⟩
    refine ⟨holdReads c env.reads 0 j, ?_, hbody, ?_⟩
    · rw [ht]
      simp
    · intro ev hev
      rw [ht] at hev
      simp only [List.cons_append, List.append_assoc, List.mem_cons, List.mem_append,
        List.mem_singleton, List.not_mem_nil, or_false, false_or] at hev
      rcases hev with hev | hev | hev | hev
      · subst hev; exact ⟨rfl, rfl, rfl, rfl⟩
      · obtain ⟨n, err, hr⟩ := hbody ev hev
        subst hr; exact ⟨rfl, rfl, rfl, rfl⟩
      · subst hev; exact ⟨rfl, rfl, rfl, rfl⟩
      · subst hev; exact ⟨rfl, rfl, rfl, rfl⟩
  · rw [hu] at he
    simp only [Option.some.injEq] at he
    exact absurd he.symm hne
  · rw [hu] at he; simp at he
  · rw [hu] at he; simp at he
  · rw [hu] at he; simp at he

/-- An instance of C5: two reads time out, the third meets the end of the
stream. -/
theorem udp_session_reads_then_closes_witness :
    sampleUdpEnv.getAddr.2 = some InfoUDPAssociate ∧
    session "relay.example:8388" sampleShadow 3 sampleUdpEnv 3 =
      some [Event.getAddr 3 [] (some InfoUDPAssociate),
        Event.read 3 1 0 (some ErrDeadlineExceeded), Event.read 3 1 0 (some ErrDeadlineExceeded),
        Event.read 3 1 0 (some sampleEOF), Event.log LogMsg.udpAssociateEnd, Event.close 3] ∧
    ∃ body,
      [Event.getAddr 3 [] (some InfoUDPAssociate),
        Event.read 3 1 0 (some ErrDeadlineExceeded), Event.read 3 1 0 (some ErrDeadlineExceeded),
        Event.read 3 1 0 (some sampleEOF), Event.log LogMsg.udpAssociateEnd, Event.close 3] =
      Event.getAddr 3 sampleUdpEnv.getAddr.1 (some InfoUDPAssociate) :: body ++
        [Event.log LogMsg.udpAssociateEnd, Event.close 3] ∧
      (∀ ev ∈ body, ∃ n err, ev = Event.read 3 1 n err) ∧
      (∀ ev ∈ [Event.getAddr 3 [] (some InfoUDPAssociate),
        Event.read 3 1 0 (some ErrDeadlineExceeded), Event.read 3 1 0 (some ErrDeadlineExceeded),
        Event.read 3 1 0 (some sampleEOF), Event.log LogMsg.udpAssociateEnd, Event.close 3],
        ev.isDial = false ∧ ev.isShadow = false ∧ ev.isRelay = false ∧ ev.isWrite = false) :=
  ⟨rfl, rfl,
    udp_session_reads_then_closes "relay.example:8388" sampleShadow 3 sampleUdpEnv 3 _ rfl rfl⟩

theorem holdReads_stage (c : Conn) (reads : Nat → Nat × Err) (k j : Nat) :
    (holdReads c reads k j).filterMap Event.stage = [] := by
  rw [List.filterMap_eq_nil_iff]
  intro ev hev
  unfold holdReads at hev
  rw [List.mem_map] at hev
  obtain ⟨i, _, hi⟩ := hev
  rw [← hi]
  rfl

/-- C6: in every run of the session handler that returns, the calls come in
the order handshake, dial, cipher wrap, header write, relay, close, each of the
first five at most once; the dial is made only after a successful handshake,
the wrap only on a successfully dialed connection, the header write only on the
wrapped connection, the relay only after a successful header write; reads are
made on the client connection only, in sessions that never dial; and when the
dial fails the session is handshake, dial, log line, close of the client
connection. -/
theorem session_steps_in_order (server : String) (shadow : Conn → Conn) (c : Conn)
    (env : SessionEnv) (fuel : Nat) (tr : List Event)
    (h : session server shadow c env fuel = some tr) :
    tr.head? = some (Event.getAddr c env.getAddr.1 env.getAddr.2) ∧
    (tr.filterMap Event.stage).Pairwise (fun a b => a ≤ b) ∧
    (∀ k, k < 5 → (tr.filterMap Event.stage).count k ≤ 1) ∧
    (∀ srv rc e, Event.dial srv rc e ∈ tr →
      srv = server ∧ Event.getAddr c env.getAddr.1 none ∈ tr) ∧
    (∀ rc w, Event.shadow rc w ∈ tr → w = shadow rc ∧ Event.dial server rc none ∈ tr) ∧
    (∀ w p e, Event.write w p e ∈ tr →
      p = env.getAddr.1 ∧ ∃ rc, w = shadow rc ∧ Event.shadow rc w ∈ tr) ∧
    (∀ l r e, Event.relay l r e ∈ tr → r = c ∧ Event.write l env.getAddr.1 none ∈ tr) ∧
    (∀ x b n e, Event.read x b n e ∈ tr → x = c ∧ ∀ ev ∈ tr, ev.isDial = false) ∧
    (∀ srv rc e, Event.dial srv rc (some e) ∈ tr →
      tr = [Event.getAddr c env.getAddr.1 none, Event.dial srv rc (some e),
        Event.log (LogMsg.failedToConnect srv e), Event.close c]) := by
  rcases session_forms server shadow c env fuel tr h with
    ⟨hg, j, _, _, _, ht⟩ | ⟨e, hg, _, ht⟩ | ⟨e, hg, _, ht⟩ | ⟨e, hg, _, _, ht⟩ |
    ⟨hg, _, _, logs, hlogs, ht⟩
  · have hst := holdReads_stage c env.reads 0 j
    have hbody : ∀ ev ∈ holdReads c env.reads 0 j, ∃ n err, ev = Event.read c 1 n err := by
      intro ev hev
      unfold holdReads at hev
      rw [List.mem_map] at hev
      obtain ⟨i, _, hi⟩ := hev
      exact ⟨_, _, hi.symm⟩
    have hmemb : ∀ ev, ev ∈ tr → ev = Event.getAddr c env.getAddr.1 (some InfoUDPAssociate) ∨
        (∃ n err, ev = Event.read c 1 n err) ∨ ev = Event.log LogMsg.udpAssociateEnd ∨
        ev = Event.close c := by
      intro ev hev
      rw [ht] at hev
      simp only [List.cons_append, List.append_assoc, List.mem_cons, List.mem_append,
        List.mem_singleton, List.not_mem_nil, or_false, false_or] at hev
      rcases hev with hev | hev | hev | hev
      · exact Or.inl hev
      · exact Or.inr (Or.inl (hbody ev hev))
      · exact Or.inr (Or.inr (Or.inl hev))
      · exact Or.inr (Or.inr (Or.inr hev))
    have hstages : tr.filterMap Event.stage = [0, 5] := by
      rw [ht]
      simp [List.filterMap_cons, List.filterMap_append, hst, Event.stage]
    refine ⟨?_, ?_, ?_, ?_, ?_, ?_, ?_, ?_, ?_⟩
    · rw [ht, hg]; rfl
    · rw [hstages]; decide
    · intro k hk
      rw [hstages]
      interval_cases k <;> decide
    · intro srv rc e hm
      rcases hmemb _ hm with h1 | ⟨n, err, h1⟩ | h1 | h1 <;> simp at h1
    · intro rc w hm
      rcases hmemb _ hm with h1 | ⟨n, err, h1⟩ | h1 | h1 <;> simp at h1
    · intro w p e hm
      rcases hmemb _ hm with h1 | ⟨n, err, h1⟩ | h1 | h1 <;> simp at h1
    · intro l r e hm
      rcases hmemb _ hm with h1 | ⟨n, err, h1⟩ | h1 | h1 <;> simp at h1
    · intro x b n e hm
      refine ⟨?_, ?_⟩
      · rcases hmemb _ hm with h1 | ⟨n, err, h1⟩ | h1 | h1 <;> simp at h1
        exact h1.1
      · intro ev hev
        rcases hmemb _ hev with h1 | ⟨n, err, h1⟩ | h1 | h1 <;> subst h1 <;> rfl
    · intro srv rc e hm
      rcases hmemb _ hm with h1 | ⟨n, err, h1⟩ | h1 | h1 <;> simp at h1
  · subst ht
    refine ⟨by rw [hg]; rfl, by simp [Event.stage], ?_, by simp, by simp, by simp, by simp,
      by simp, by simp⟩
    intro k hk
    interval_cases k <;> simp [Event.stage]
  · subst ht
    refine ⟨by rw [hg]; rfl, by simp [Event.stage], ?_, ?_, by simp, by simp, by simp,
      by simp, ?_⟩
    · intro k hk
      interval_cases k <;> simp [Event.stage]
    · intro srv rc e1 hm
      simp at hm
      simp [hm.1]
    · intro srv rc e1 hm
      simp at hm
      obtain ⟨h1, h2, h3⟩ := hm
      subst h1 h2 h3
      rfl
  · subst ht
    refine ⟨by rw [hg]; rfl, by simp [Event.stage], ?_, ?_, ?_, ?_, by simp, by simp,
      by simp⟩
    · intro k hk
      interval_cases k <;> simp [Event.stage]
    · intro srv rc e1 hm
      simp at hm
      simp [hm.1]
    · intro rc w hm
      simp at hm
      simp [hm.1, hm.2]
    · intro w p e1 hm
      simp at hm
      exact ⟨hm.2.1, env.dial.1, hm.1, by simp [hm.1]⟩
  · have hl : tr.filterMap Event.stage = [0, 1, 2, 3, 4, 5, 5] := by
      rcases hlogs with hl | ⟨e, hl⟩ <;> subst hl <;> subst ht <;> simp [Event.stage]
    have hmemb : ∀ ev, ev ∈ tr → ev = Event.getAddr c env.getAddr.1 none ∨
        ev = Event.dial server env.dial.1 none ∨
        ev = Event.shadow env.dial.1 (shadow env.dial.1) ∨
        ev = Event.write (shadow env.dial.1) env.getAddr.1 none ∨
        ev = Event.relay (shadow env.dial.1) c (relay (shadow env.dial.1) c env.relay).2.2 ∨
        ev.stage = none ∨ ev.stage = some 5 := by
      intro ev hev
      rcases hlogs with hl | ⟨e, hl⟩
      · subst hl ht
        simp at hev
        rcases hev with h1 | h1 | h1 | h1 | h1 | h1 | h1 | h1 | h1 <;> subst h1 <;>
          simp [Event.stage]
      · subst hl ht
        simp at hev
        rcases hev with h1 | h1 | h1 | h1 | h1 | h1 | h1 | h1 | h1 | h1 <;> subst h1 <;>
          simp [Event.stage]
    have hin : ∀ ev, (ev = Event.getAddr c env.getAddr.1 none ∨
        ev = Event.dial server env.dial.1 none ∨
        ev = Event.shadow env.dial.1 (shadow env.dial.1) ∨
        ev = Event.write (shadow env.dial.1) env.getAddr.1 none) → ev ∈ tr := by
      intro ev hev
      rw [ht]
      rcases hev with h1 | h1 | h1 | h1 <;> subst h1 <;> simp
    refine ⟨?_, ?_, ?_, ?_, ?_, ?_, ?_, ?_, ?_⟩
    · rw [ht, hg]; rfl
    · rw [hl]; decide
    · intro k hk
      rw [hl]
      interval_cases k <;> decide
    · intro srv rc e hm
      rcases hmemb _ hm with h1 | h1 | h1 | h1 | h1 | h1 | h1 <;> simp [Event.stage] at h1
      exact ⟨h1.1, hin _ (Or.inl rfl)⟩
    · intro rc w hm
      rcases hmemb _ hm with h1 | h1 | h1 | h1 | h1 | h1 | h1 <;> simp [Event.stage] at h1
      obtain ⟨h1, h2⟩ := h1
      subst h1 h2
      exact ⟨rfl, hin _ (Or.inr (Or.inl rfl))⟩
    · intro w p e hm
      rcases hmemb _ hm with h1 | h1 | h1 | h1 | h1 | h1 | h1 <;> simp [Event.stage] at h1
      obtain ⟨h1, h2, h3⟩ := h1
      subst h1 h2 h3
      exact ⟨rfl, env.dial.1, rfl, hin _ (Or.inr (Or.inr (Or.inl rfl)))⟩
    · intro l r e hm
      rcases hmemb _ hm with h1 | h1 | h1 | h1 | h1 | h1 | h1 <;> simp [Event.stage] at h1
      obtain ⟨h1, h2, h3⟩ := h1
      subst h1 h2
      exact ⟨rfl, hin _ (Or.inr (Or.inr (Or.inr rfl)))⟩
    · intro x b n e hm
      rcases hmemb _ hm with h1 | h1 | h1 | h1 | h1 | h1 | h1 <;> simp [Event.stage] at h1
      exfalso
      rcases hlogs with hl2 | ⟨e2, hl2⟩ <;> subst hl2 <;> subst ht <;> simp at hm
    · intro srv rc e hm
      rcases hmemb _ hm with h1 | h1 | h1 | h1 | h1 | h1 | h1 <;> simp [Event.stage] at h1

/-- An instance of C6: a session that relays. -/
theorem session_steps_in_order_witness :
    session "relay.example:8388" sampleShadow 3 sampleTcpEnv 0 =
      some [Event.getAddr 3 sampleTarget none, Event.dial "relay.example:8388" 5 none,
        Event.shadow 5 105, Event.write 105 sampleTarget none, Event.remoteAddr 3,
        Event.log (LogMsg.proxy 3 "relay.example:8388" sampleTarget), Event.relay 105 3 none,
        Event.close 5, Event.close 3] ∧
    ([Event.getAddr 3 sampleTarget none, Event.dial "relay.example:8388" 5 none,
        Event.shadow 5 105, Event.write 105 sampleTarget none, Event.remoteAddr 3,
        Event.log (LogMsg.proxy 3 "relay.example:8388" sampleTarget), Event.relay 105 3 none,
        Event.close 5, Event.close 3].filterMap Event.stage).Pairwise (fun a b => a ≤ b) :=
  ⟨rfl, (session_steps_in_order "relay.example:8388" sampleShadow 3 sampleTcpEnv 0
    [Event.getAddr 3 sampleTarget none, Event.dial "relay.example:8388" 5 none,
        Event.shadow 5 105, Event.write 105 sampleTarget none, Event.remoteAddr 3,
        Event.log (LogMsg.proxy 3 "relay.example:8388" sampleTarget), Event.relay 105 3 none,
        Event.close 5, Event.close 3] rfl).2.1⟩

/-- C4: in UDP hold the code leaves the loop at the first read that is not a
`net.Error` timeout, a read that returns data and a nil error included: with
the sentinel from the handshake and a first read returning one byte and no
error, the session makes that one read, logs the end of the association and
closes the client connection. -/
theorem udp_hold_ends_on_data_read :
    session "relay.example:8388" sampleShadow 3 sampleUdpDataEnv 5 =
      some [Event.getAddr 3 [] (some InfoUDPAssociate), Event.read 3 1 1 none,
        Event.log LogMsg.udpAssociateEnd, Event.close 3] := by
  rfl

/-! ## Properties of the accept loop -/

theorem acceptLoop_accepts (server : String) (shadow : Conn → Conn) (env : ListenerEnv) :
    ∀ n k, (acceptLoop server shadow env n k).filter ListenerEvent.isAccept =
      (List.range' k n).map (acceptEvent env) := by
  intro n
  induction n with
  | zero => intro k; rfl
  | succ n ih =>
    intro k
    rw [acceptLoop, List.filter_append, ih (k + 1), List.range'_succ, List.map_cons]
    unfold acceptIteration acceptEvent
    cases h : (env.accepts k).2 <;> simp [List.filter_cons, ListenerEvent.isAccept]

theorem acceptLoop_gos (server : String) (shadow : Conn → Conn) (env : ListenerEnv) :
    ∀ n k, (acceptLoop server shadow env n k).filter ListenerEvent.isGo =
      (List.range' k n).filterMap (goEvent server shadow env) := by
  intro n
  induction n with
  | zero => intro k; rfl
  | succ n ih =>
    intro k
    rw [acceptLoop, List.filter_append, ih (k + 1), List.range'_succ, List.filterMap_cons]
    unfold acceptIteration goEvent
    cases h : (env.accepts k).2 <;> simp [List.filter_cons, ListenerEvent.isGo]

theorem acceptLoop_succ (server : String) (shadow : Conn → Conn) (env : ListenerEnv) :
    ∀ n k, acceptLoop server shadow env (n + 1) k =
      acceptLoop server shadow env n k ++ acceptIteration server shadow env (k + n) := by
  intro n
  induction n with
  | zero => intro k; simp [acceptLoop]
  | succ n ih =>
    intro k
    rw [acceptLoop, ih (k + 1), acceptLoop, List.append_assoc]
    rw [show k + 1 + n = k + (n + 1) by omega]

/-- C9: in `tcpLocal`, when the bind fails the function logs and returns
without any call of `Accept`; when the bind succeeds the function has not
returned after any number `n` of passes of the loop and has then made exactly
the accepts `0`, ..., `n - 1`, whatever their results and whatever the outcomes
of the sessions; a failed accept is followed by a log line and no session, a
successful one by the start of one session. -/
theorem tcpLocal_accept_loop (addr server : String) (shadow : Conn → Conn) (env : ListenerEnv) :
    (∀ e, env.listen = some e → ∀ n,
      tcpLocal addr server shadow env n =
        ([ListenerEvent.listen addr (some e), ListenerEvent.log (LogMsg.failedToListen addr e)],
          true)) ∧
    (env.listen = none → ∀ n,
      (tcpLocal addr server shadow env n).2 = false ∧
      (tcpLocal addr server shadow env n).1.head? = some (ListenerEvent.listen addr none) ∧
      (tcpLocal addr server shadow env n).1.filter ListenerEvent.isAccept =
        (List.range n).map (acceptEvent env) ∧
      (tcpLocal addr server shadow env n).1.filter ListenerEvent.isGo =
        (List.range n).filterMap (goEvent server shadow env) ∧
      (tcpLocal addr server shadow env (n + 1)).1 =
        (tcpLocal addr server shadow env n).1 ++ acceptIteration server shadow env n) ∧
    (∀ k e, (env.accepts k).2 = some e →
      acceptIteration server shadow env k =
        [ListenerEvent.accept (env.accepts k).1 (some e),
          ListenerEvent.log (LogMsg.failedToAccept e)]) ∧
    (∀ k, (env.accepts k).2 = none →
      acceptIteration server shadow env k =
        [ListenerEvent.accept (env.accepts k).1 none,
          ListenerEvent.go (env.accepts k).1
            (session server shadow (env.accepts k).1 (env.sessions k) (env.sessionFuel k))]) ∧
    (∀ env2 : ListenerEnv, env2.listen = env.listen → env2.accepts = env.accepts → ∀ n,
      (tcpLocal addr server shadow env2 n).2 = (tcpLocal addr server shadow env n).2 ∧
      (tcpLocal addr server shadow env2 n).1.filter ListenerEvent.isAccept =
        (tcpLocal addr server shadow env n).1.filter ListenerEvent.isAccept) := by
  have hacc : ∀ (ev : ListenerEnv), ev.listen = none → ∀ n,
      (tcpLocal addr server shadow ev n).1.filter ListenerEvent.isAccept =
        (List.range n).map (acceptEvent ev) := by
    intro ev hl n
    unfold tcpLocal
    rw [hl]
    simp only [List.filter_cons, ListenerEvent.isAccept]
    rw [acceptLoop_accepts, List.range_eq_range']
    simp
  refine ⟨?_, ?_, ?_, ?_, ?_⟩
  · intro e he n
    unfold tcpLocal
    rw [he]
  · intro hl n
    refine ⟨?_, ?_, hacc env hl n, ?_, ?_⟩
    · unfold tcpLocal
      rw [hl]
    · unfold tcpLocal
      rw [hl]
      rfl
    · unfold tcpLocal
      rw [hl]
      simp only [List.filter_cons, ListenerEvent.isGo]
      rw [acceptLoop_gos, List.range_eq_range']
      simp
    · unfold tcpLocal
      rw [hl]
      simp only [List.cons_append, List.cons.injEq, true_and]
      rw [acceptLoop_succ, Nat.zero_add]
  · intro k e he
    unfold acceptIteration
    rw [he]
  · intro k he
    unfold acceptIteration
    rw [he]
  · intro env2 hl2 ha2 n
    cases hl : env.listen with
    | some e =>
      have hl2b : env2.listen = some e := by rw [hl2, hl]
      unfold tcpLocal
      rw [hl, hl2b]
      simp [List.filter_cons, ListenerEvent.isAccept]
    | none =>
      have hl2b : env2.listen = none := by rw [hl2, hl]
      refine ⟨?_, ?_⟩
      · unfold tcpLocal
        rw [hl, hl2b]
      · rw [hacc env hl n, hacc env2 hl2b n]
        unfold acceptEvent
        rw [ha2]

/-- An instance of C9: the bind succeeds, the accept number 0 fails and the
accept number 1 succeeds; after two passes the loop has accepted twice, started
one session and not returned. -/
theorem tcpLocal_accept_loop_witness :
    sampleListenerEnv.listen = none ∧
    (tcpLocal ":1080" "relay.example:8388" sampleShadow sampleListenerEnv 2).2 = false ∧
    (tcpLocal ":1080" "relay.example:8388" sampleShadow sampleListenerEnv 2).1.filter
        ListenerEvent.isAccept =
      (List.range 2).map (acceptEvent sampleListenerEnv) ∧
    (tcpLocal ":1080" "relay.example:8388" sampleShadow sampleListenerEnv 2).1 =
      [ListenerEvent.listen ":1080" none, ListenerEvent.accept 0 (some sampleReset),
        ListenerEvent.log (LogMsg.failedToAccept sampleReset), ListenerEvent.accept 1 none,
        ListenerEvent.go 1 (some [Event.getAddr 1 sampleTarget none,
          Event.dial "relay.example:8388" 0 (some sampleReset),
          Event.log (LogMsg.failedToConnect "relay.example:8388" sampleReset),
          Event.close 1])] ∧
    tcpLocal ":1080" "relay.example:8388" sampleShadow sampleBindFailEnv 2 =
      ([ListenerEvent.listen ":1080" (some samplePipe),
        ListenerEvent.log (LogMsg.failedToListen ":1080" samplePipe)], true) :=
  ⟨rfl,
    ((tcpLocal_accept_loop ":1080" "relay.example:8388" sampleShadow sampleListenerEnv).2.1
      rfl 2).1,
    ((tcpLocal_accept_loop ":1080" "relay.example:8388" sampleShadow sampleListenerEnv).2.1
      rfl 2).2.2.1,
    rfl,
    (tcpLocal_accept_loop ":1080" "relay.example:8388" sampleShadow sampleBindFailEnv).1
      samplePipe rfl 2⟩

/-! ## Properties of the constructor -/

/-- C8: for every configuration URL `s`, `NewLocalServerFromURL` fails when
`url.Parse` fails and when the cipher factory rejects `(method, empty key,
password)`, and otherwise returns the server whose `remote` is the host of `s`
and whose cipher is the result of the factory; `method` and `password` are the
user name and the password of the user-info, both empty without user-info, the
password empty when the user-info has none. -/
theorem newLocalServer_from_url {Cipher : Type} (parse : String → Except GoError URL)
    (PickCipher : String → List UInt8 → String → Except GoError Cipher) (s : String) :
    (∀ e, parse s = .error e → NewLocalServerFromURL parse PickCipher s = .error e) ∧
    (∀ host, parse s = .ok ⟨host, none⟩ →
      (∀ e, PickCipher "" [] "" = .error e →
        NewLocalServerFromURL parse PickCipher s = .error e) ∧
      (∀ ciph, PickCipher "" [] "" = .ok ciph →
        NewLocalServerFromURL parse PickCipher s = .ok ⟨host, ciph⟩)) ∧
    (∀ host method, parse s = .ok ⟨host, some (Userinfo.User method)⟩ →
      (∀ e, PickCipher method [] "" = .error e →
        NewLocalServerFromURL parse PickCipher s = .error e) ∧
      (∀ ciph, PickCipher method [] "" = .ok ciph →
        NewLocalServerFromURL parse PickCipher s = .ok ⟨host, ciph⟩)) ∧
    (∀ host method password,
      parse s = .ok ⟨host, some (Userinfo.UserPassword method password)⟩ →
      (∀ e, PickCipher method [] password = .error e →
        NewLocalServerFromURL parse PickCipher s = .error e) ∧
      (∀ ciph, PickCipher method [] password = .ok ciph →
        NewLocalServerFromURL parse PickCipher s = .ok ⟨host, ciph⟩)) ∧
    (∀ srv, NewLocalServerFromURL parse PickCipher s = .ok srv →
      ∃ u, parse s = .ok u ∧ srv.remote = u.Host ∧
        ∃ method password, PickCipher method [] password = .ok srv.ciph) := by
  refine ⟨?_, ?_, ?_, ?_, ?_⟩
  · intro e he
    simp [NewLocalServerFromURL, parseURL, he]
  · intro host hp
    refine ⟨?_, ?_⟩ <;> intro x hx <;> simp [NewLocalServerFromURL, parseURL, hp, hx]
  · intro host method hp
    refine ⟨?_, ?_⟩ <;> intro x hx <;>
      simp [NewLocalServerFromURL, parseURL, hp, hx, Userinfo.Username, Userinfo.Password]
  · intro host method password hp
    refine ⟨?_, ?_⟩ <;> intro x hx <;>
      simp [NewLocalServerFromURL, parseURL, hp, hx, Userinfo.Username, Userinfo.Password]
  · intro srv hsrv
    cases hp : parse s with
    | error e => simp [NewLocalServerFromURL, parseURL, hp] at hsrv
    | ok u =>
      refine ⟨u, rfl, ?_⟩
      rcases u with ⟨host, user⟩
      rcases user with _ | ui
      · cases hc : PickCipher "" [] "" with
        | error e => simp [NewLocalServerFromURL, parseURL, hp, hc] at hsrv
        | ok ciph =>
          simp [NewLocalServerFromURL, parseURL, hp, hc] at hsrv
          subst hsrv
          exact ⟨rfl, "", "", hc⟩
      · cases hc : PickCipher ui.Username [] ui.Password.1 with
        | error e => simp [NewLocalServerFromURL, parseURL, hp, hc] at hsrv
        | ok ciph =>
          simp [NewLocalServerFromURL, parseURL, hp, hc] at hsrv
          subst hsrv
          exact ⟨rfl, _, _, hc⟩

/-- An instance of C8: the URL `ss://aes-256-gcm:secret@relay.example:8388`. -/
theorem newLocalServer_from_url_witness :
    sampleParse "ss://aes-256-gcm:secret@relay.example:8388" =
      .ok ⟨"relay.example:8388", some (Userinfo.UserPassword "aes-256-gcm" "secret")⟩ ∧
    samplePickCipher "aes-256-gcm" [] "secret" = .ok ("aes-256-gcm", [], "secret") ∧
    NewLocalServerFromURL sampleParse samplePickCipher
        "ss://aes-256-gcm:secret@relay.example:8388" =
      .ok ⟨"relay.example:8388", ("aes-256-gcm", [], "secret")⟩ :=
  ⟨rfl, rfl,
    ((newLocalServer_from_url sampleParse samplePickCipher
      "ss://aes-256-gcm:secret@relay.example:8388").2.2.2.1
      "relay.example:8388" "aes-256-gcm" "secret" rfl).2 ("aes-256-gcm", [], "secret") rfl⟩

end Client
